import Mathlib

/-!
Shallow embedding of the PRT-7 decoder (`src/main.cpp`).

Characters are modelled as their ASCII codes (`Nat`): the C++ code compares
and arithmetics on `char` values directly ('A' = 65, ..., 'Z' = 90,
'a' = 97, ..., 'z' = 122, ',' = 44, ' ' = 32, '\0' = 0).

The rotor (`RotorDeMapeo`, a circular doubly linked list of the 26 letters
with a movable `cabeza` pointer) is modelled by the list of node characters
read forward starting at `cabeza`.  Moving `cabeza` one node forward
(`cabeza = cabeza->siguiente`) turns that reading into `ring.rotate 1`;
moving it one node backward (`cabeza = cabeza->previo`) turns it into
`ring.rotate (ring.length - 1)`.

The payload list (`ListaDeCarga`, a doubly linked list with tail insertion)
is modelled by the `List Nat` of its node characters front to back;
`insertarAlFinal` is appending and `imprimirMensaje` prints that list in
order, so the rendered message is the list itself.

Input lines arrive through `leerLineaSerial` in a NUL-terminated `char`
buffer; `main` indexes `buffer[i]`.  A line is modelled by the `List Nat`
of its characters, and `byteAt` models `buffer[i]`: for `i` up to the line
length it yields the character or the terminating NUL, which is exactly
what every index reachable in `main`'s parsing code observes (the `Space`
comparison and the digit loop both stop at the first mismatching or
non-digit byte, hence never read past the terminator).
-/

/-- The alphabet A..Z as ASCII codes 65..90, the content of the rotor ring
built by the `RotorDeMapeo` constructor. -/
def alfabeto : List Nat := (List.range 26).map (fun i => 65 + i)

/-- Rotor state: the ring of node characters read forward from `cabeza`. -/
structure RotorDeMapeo where
  ring : List Nat
  deriving DecidableEq, Repr

/-- The freshly constructed rotor: `cabeza` at the node 'A' of the ring
A,B,...,Z (constructor `RotorDeMapeo::RotorDeMapeo`). -/
def RotorDeMapeo.init : RotorDeMapeo := ⟨alfabeto⟩

/-- One step `cabeza = cabeza->siguiente` of `rotar` on a positive count. -/
def pasoSiguiente (l : List Nat) : List Nat := l.rotate 1

/-- One step `cabeza = cabeza->previo` of `rotar` on a negative count. -/
def pasoPrevio (l : List Nat) : List Nat := l.rotate (l.length - 1)

/-- `RotorDeMapeo::rotar(int n)`: move `cabeza` forward `n` nodes when
`n > 0`, backward `-n` nodes when `n < 0`, not at all when `n = 0`. -/
def RotorDeMapeo.rotar (r : RotorDeMapeo) (n : Int) : RotorDeMapeo :=
  if 0 < n then ⟨pasoSiguiente^[n.toNat] r.ring⟩
  else if n < 0 then ⟨pasoPrevio^[(-n).toNat] r.ring⟩
  else r

/-- `RotorDeMapeo::getMapeo(char in)`.  Non-letters pass through unchanged;
a lowercase letter is uppercased (`in - 32`).  The do-while loop walks
forward from `cabeza` counting `posicionEntrada` until it finds the
character (this is `List.indexOf`: first index of the character, or the
length — a full circle back to `cabeza` — if absent); the result walks
`posicionEntrada` nodes forward from `cabeza` again, i.e. reads the node
at that index modulo the ring length (the 26-node ring is never empty, so
the `getD` default is unreachable). -/
def RotorDeMapeo.getMapeo (r : RotorDeMapeo) (inp : Nat) : Nat :=
  if (inp < 65 ∨ 90 < inp) ∧ (inp < 97 ∨ 122 < inp) then inp
  else
    let c := if 97 ≤ inp ∧ inp ≤ 122 then inp - 32 else inp
    let pos := r.ring.indexOf c
    r.ring.getD (pos % r.ring.length) 0

/-- The uppercase form a letter is normalized to in `getMapeo`. -/
def mayuscula (inp : Nat) : Nat := if 97 ≤ inp ∧ inp ≤ 122 then inp - 32 else inp

/-- `buffer[i]` of the NUL-terminated line buffer holding line `l`. -/
def byteAt (l : List Nat) (i : Nat) : Nat := l.getD i 0

/-- The digit loop of the `M,` branch of `main`: consume decimal digits,
accumulating `rotacion = rotacion * 10 + (digit - '0')`, and stop at the
first non-digit byte (in the buffer the bytes after the line are headed by
the NUL terminator, which is not a digit, so stopping at the end of the
modelled line is faithful). -/
def leerDigitos : List Nat → Nat → Nat
  | [], acc => acc
  | b :: bs, acc => if 48 ≤ b ∧ b ≤ 57 then leerDigitos bs (acc * 10 + (b - 48)) else acc

/-- The manual integer parse of the `M,` branch of `main` applied to the
payload `buffer + 2`: optional leading '-' (45), then the digit loop. -/
def parseRotacion (payload : List Nat) : Int :=
  match payload with
  | [] => 0
  | b :: bs => if b = 45 then -(leerDigitos bs 0 : Int) else (leerDigitos (b :: bs) 0 : Int)

/-- The `Space` test of the `L,` branch of `main`: `buffer[2] == 'S' &&
buffer[3] == 'p' && buffer[4] == 'a' && buffer[5] == 'c' && buffer[6] == 'e'`. -/
def esCargaSpace (l : List Nat) : Bool :=
  byteAt l 2 = 83 ∧ byteAt l 3 = 112 ∧ byteAt l 4 = 97 ∧ byteAt l 5 = 99 ∧ byteAt l 6 = 101

/-- The character carried by an `L,` line: a literal space when the `Space`
test succeeds, otherwise `buffer[2]`. -/
def caracterDeCarga (l : List Nat) : Nat := if esCargaSpace l then 32 else byteAt l 2

/-- The frame hierarchy: `TramaLoad(caracter)` and `TramaMap(rotacion)`. -/
inductive Trama where
  | load (caracter : Nat)
  | mapa (rotacion : Int)
  deriving DecidableEq, Repr

/-- Decoder state: the rotor and the contents of the `ListaDeCarga`. -/
structure Estado where
  rotor : RotorDeMapeo
  carga : List Nat
  deriving DecidableEq, Repr

/-- The initial state of `main`: fresh rotor, empty `ListaDeCarga`. -/
def Estado.init : Estado := ⟨RotorDeMapeo.init, []⟩

/-- `TramaLoad::procesar` decodes the character through the rotor and
appends it to the list (`insertarAlFinal`); `TramaMap::procesar` rotates
the rotor and leaves the list untouched.  (The `std::cout` logging in both
is presentation only.) -/
def Trama.procesar : Trama → Estado → Estado
  | .load c, ⟨rotor, carga⟩ => ⟨rotor, carga ++ [rotor.getMapeo c]⟩
  | .mapa n, ⟨rotor, carga⟩ => ⟨rotor.rotar n, carga⟩

/-- One iteration of `main`'s loop body on a successfully read line:
classify by the first bytes, build and process the frame, and report
whether the loop continues (`true`) or breaks on the END branch (`false`).
Unrecognized lines fall through all branches and change nothing. -/
def procesarLinea (st : Estado) (l : List Nat) : Estado × Bool :=
  if byteAt l 0 = 76 ∧ byteAt l 1 = 44 then
    ((Trama.load (caracterDeCarga l)).procesar st, true)
  else if byteAt l 0 = 77 ∧ byteAt l 1 = 44 then
    ((Trama.mapa (parseRotacion (l.drop 2))).procesar st, true)
  else if byteAt l 0 = 69 ∧ byteAt l 1 = 78 ∧ byteAt l 2 = 68 then
    (st, false)
  else
    (st, true)

/-- `main`'s loop over a stream of lines: process each in turn, stopping
when a line's processing signals a break. -/
def procesarLineas : Estado → List (List Nat) → Estado
  | st, [] => st
  | st, l :: ls =>
    let (st', continuar) := procesarLinea st l
    if continuar then procesarLineas st' ls else st'

/-- Rotor-only operation sequences: apply `rotar` for each delta in turn. -/
def aplicarRotaciones : List Int → RotorDeMapeo → RotorDeMapeo
  | [], r => r
  | n :: ns, r => aplicarRotaciones ns (r.rotar n)

/-- An observable operation on the rotor: a `rotar(n)` call or a
`getMapeo(c)` call.  `getMapeo` performs no assignment to `cabeza` or to
any node field (it only walks `siguiente` pointers into local variables),
so a query leaves the rotor state unchanged. -/
inductive OpRotor where
  | rot (n : Int)
  | consulta (c : Nat)

/-- The rotor state after a sequence of `rotar` / `getMapeo` calls. -/
def aplicarOps : List OpRotor → RotorDeMapeo → RotorDeMapeo
  | [], r => r
  | .rot n :: os, r => aplicarOps os (r.rotar n)
  | .consulta _ :: os, r => aplicarOps os r

/-- The decoded symbols of a frame sequence in arrival order of its load
frames, each decoded with the rotor state current when it is processed. -/
def decodificados : List Trama → RotorDeMapeo → List Nat
  | [], _ => []
  | .load c :: ts, r => r.getMapeo c :: decodificados ts r
  | .mapa n :: ts, r => decodificados ts (r.rotar n)

/-- Processing a frame sequence from a state (no END frames exist at the
`Trama` level, so every frame is processed). -/
def procesarTramas : List Trama → Estado → Estado
  | [], st => st
  | t :: ts, st => procesarTramas ts (t.procesar st)

/-! ### Helper lemmas -/

theorem rotor_eq_of_ring {a b : RotorDeMapeo} (h : a.ring = b.ring) : a = b := by
  cases a; cases b; cases h; rfl

theorem pasoSiguiente_iter (k : Nat) (l : List Nat) :
    pasoSiguiente^[k] l = l.rotate k := by
  induction k generalizing l with
  | zero => simp
  | succ m ih =>
    rw [Function.iterate_succ_apply, ih (pasoSiguiente l)]
    unfold pasoSiguiente
    rw [List.rotate_rotate]
    congr 1
    omega

theorem pasoPrevio_iter (k : Nat) (l : List Nat) :
    pasoPrevio^[k] l = l.rotate (k * (l.length - 1)) := by
  induction k generalizing l with
  | zero => simp
  | succ m ih =>
    rw [Function.iterate_succ_apply, ih (pasoPrevio l)]
    unfold pasoPrevio
    rw [List.length_rotate, List.rotate_rotate]
    congr 1
    generalize l.length - 1 = x
    ring

theorem rotar_ring_pos (r : RotorDeMapeo) (n : Int) (h : 0 < n) :
    (r.rotar n).ring = r.ring.rotate n.toNat := by
  unfold RotorDeMapeo.rotar
  rw [if_pos h]
  exact pasoSiguiente_iter _ _

theorem rotar_ring_neg (r : RotorDeMapeo) (n : Int) (h : n < 0) :
    (r.rotar n).ring = r.ring.rotate ((-n).toNat * (r.ring.length - 1)) := by
  unfold RotorDeMapeo.rotar
  rw [if_neg (by omega), if_pos h]
  exact pasoPrevio_iter _ _

theorem rotar_zero (r : RotorDeMapeo) : r.rotar 0 = r := by
  unfold RotorDeMapeo.rotar
  simp

/-- Every `rotar` call turns the ring into a rotation of itself. -/
theorem rotar_ring_rotate (r : RotorDeMapeo) (n : Int) :
    ∃ k, (r.rotar n).ring = r.ring.rotate k := by
  rcases lt_trichotomy 0 n with h | h | h
  · exact ⟨n.toNat, rotar_ring_pos r n h⟩
  · exact ⟨0, by rw [← h, rotar_zero, List.rotate_zero]⟩
  · exact ⟨(-n).toNat * (r.ring.length - 1), rotar_ring_neg r n h⟩

/-- Stepping forward `a` nodes and then backward `a` nodes (or vice versa)
returns `cabeza` to the node it started at: the total forward displacement
is a multiple of the ring length. -/
theorem rotate_mul_pred_add (l : List Nat) (a : Nat) :
    l.rotate (a * (l.length - 1) + a) = l := by
  cases l with
  | nil => exact List.rotate_nil _
  | cons x xs =>
    have h : a * ((x :: xs).length - 1) + a = (x :: xs).length * a := by
      simp only [List.length_cons, Nat.add_sub_cancel]
      ring
    rw [h, List.rotate_length_mul]

theorem rotate_cancel (l : List Nat) (a : Nat) :
    (l.rotate a).rotate (a * (l.length - 1)) = l := by
  rw [List.rotate_rotate, Nat.add_comm]
  exact rotate_mul_pred_add l a

/-- `rotar(n)` followed by `rotar(-n)` restores the rotor state exactly. -/
theorem rotar_rotar_neg (r : RotorDeMapeo) (n : Int) :
    (r.rotar n).rotar (-n) = r := by
  rcases lt_trichotomy 0 n with h | h | h
  · apply rotor_eq_of_ring
    rw [rotar_ring_neg _ _ (by omega), rotar_ring_pos _ _ h,
      List.length_rotate, neg_neg]
    exact rotate_cancel r.ring n.toNat
  · rw [← h, neg_zero, rotar_zero, rotar_zero]
  · apply rotor_eq_of_ring
    rw [rotar_ring_pos _ _ (by omega), rotar_ring_neg _ _ h, List.rotate_rotate]
    exact rotate_mul_pred_add r.ring (-n).toNat

theorem mem_alfabeto {u : Nat} (h1 : 65 ≤ u) (h2 : u ≤ 90) : u ∈ alfabeto := by
  unfold alfabeto
  rw [List.mem_map]
  exact ⟨u - 65, by rw [List.mem_range]; omega, by omega⟩

/-- On an alphabetic input whose uppercase form occurs in the ring,
`getMapeo` walks to that character and walks the same distance again from
`cabeza`, landing on the very node it found: it returns the uppercase form
of its input. -/
theorem getMapeo_of_mem (r : RotorDeMapeo) (inp : Nat)
    (hL : 65 ≤ inp ∧ inp ≤ 90 ∨ 97 ≤ inp ∧ inp ≤ 122)
    (hm : mayuscula inp ∈ r.ring) : r.getMapeo inp = mayuscula inp := by
  unfold RotorDeMapeo.getMapeo
  rw [if_neg (by omega)]
  show r.ring.getD (r.ring.indexOf (mayuscula inp) % r.ring.length) 0 = mayuscula inp
  have hlt : r.ring.indexOf (mayuscula inp) < r.ring.length :=
    List.indexOf_lt_length.mpr hm
  rw [Nat.mod_eq_of_lt hlt, List.getD_eq_getElem r.ring 0 hlt]
  exact List.getElem_indexOf hlt

theorem mayuscula_mem_alfabeto {inp : Nat}
    (hL : 65 ≤ inp ∧ inp ≤ 90 ∨ 97 ≤ inp ∧ inp ≤ 122) :
    mayuscula inp ∈ alfabeto := by
  unfold mayuscula
  split <;> [exact mem_alfabeto (by omega) (by omega);
    exact mem_alfabeto (by omega) (by omega)]

/-- `getMapeo` gives the same answer on every rotation of the alphabet
ring: non-letters pass through and letters are found in the ring and
mapped to themselves (uppercased). -/
theorem getMapeo_rotate (k : Nat) (inp : Nat) :
    RotorDeMapeo.getMapeo ⟨alfabeto.rotate k⟩ inp =
      RotorDeMapeo.getMapeo RotorDeMapeo.init inp := by
  by_cases hL : 65 ≤ inp ∧ inp ≤ 90 ∨ 97 ≤ inp ∧ inp ≤ 122
  · have hm1 : mayuscula inp ∈ (RotorDeMapeo.mk (alfabeto.rotate k)).ring :=
      List.mem_rotate.mpr (mayuscula_mem_alfabeto hL)
    have hm2 : mayuscula inp ∈ RotorDeMapeo.init.ring := mayuscula_mem_alfabeto hL
    rw [getMapeo_of_mem ⟨alfabeto.rotate k⟩ inp hL hm1,
      getMapeo_of_mem RotorDeMapeo.init inp hL hm2]
  · unfold RotorDeMapeo.getMapeo
    rw [if_pos (by omega), if_pos (by omega)]

/-- Any sequence of `rotar` calls turns the ring into a rotation of what
it was. -/
theorem aplicarRotaciones_ring (ds : List Int) (r : RotorDeMapeo) :
    ∃ k, (aplicarRotaciones ds r).ring = r.ring.rotate k := by
  induction ds generalizing r with
  | nil => exact ⟨0, (List.rotate_zero r.ring).symm⟩
  | cons n ns ih =>
    obtain ⟨j, hj⟩ := rotar_ring_rotate r n
    obtain ⟨k, hk⟩ := ih (r.rotar n)
    refine ⟨j + k, ?_⟩
    show (aplicarRotaciones ns (r.rotar n)).ring = r.ring.rotate (j + k)
    rw [hk, hj, List.rotate_rotate]

/-- Any sequence of `rotar` and `getMapeo` calls turns the ring into a
rotation of what it was. -/
theorem aplicarOps_ring (os : List OpRotor) (r : RotorDeMapeo) :
    ∃ k, (aplicarOps os r).ring = r.ring.rotate k := by
  induction os generalizing r with
  | nil => exact ⟨0, (List.rotate_zero r.ring).symm⟩
  | cons o os ih =>
    cases o with
    | rot n =>
      obtain ⟨j, hj⟩ := rotar_ring_rotate r n
      obtain ⟨k, hk⟩ := ih (r.rotar n)
      refine ⟨j + k, ?_⟩
      show (aplicarOps os (r.rotar n)).ring = r.ring.rotate (j + k)
      rw [hk, hj, List.rotate_rotate]
    | consulta c => exact ih r

/-- On every state reachable from the initial rotor, `getMapeo` behaves
exactly as on the initial rotor. -/
theorem getMapeo_alcanzable (ds : List Int) (inp : Nat) :
    (aplicarRotaciones ds RotorDeMapeo.init).getMapeo inp =
      RotorDeMapeo.init.getMapeo inp := by
  obtain ⟨k, hk⟩ := aplicarRotaciones_ring ds RotorDeMapeo.init
  have : aplicarRotaciones ds RotorDeMapeo.init = ⟨alfabeto.rotate k⟩ :=
    rotor_eq_of_ring hk
  rw [this, getMapeo_rotate]

/-- `getMapeo` on a non-letter: the guard at the top returns the input
unchanged, whatever the rotor state. -/
theorem getMapeo_pasa (r : RotorDeMapeo) (inp : Nat)
    (h1 : inp < 65 ∨ 90 < inp) (h2 : inp < 97 ∨ 122 < inp) :
    r.getMapeo inp = inp := by
  unfold RotorDeMapeo.getMapeo
  rw [if_pos ⟨h1, h2⟩]

theorem leerDigitos_sin_digitos (bs : List Nat) (acc : Nat)
    (h : ∀ b ∈ bs, ¬(48 ≤ b ∧ b ≤ 57)) : leerDigitos bs acc = acc := by
  cases bs with
  | nil => rfl
  | cons b bs =>
    unfold leerDigitos
    rw [if_neg (h b (List.mem_cons_self b bs))]

theorem parseRotacion_sin_digitos (payload : List Nat)
    (h : ∀ b ∈ payload, ¬(48 ≤ b ∧ b ≤ 57)) : parseRotacion payload = 0 := by
  cases payload with
  | nil => rfl
  | cons b bs =>
    show (if b = 45 then -(leerDigitos bs 0 : Int) else (leerDigitos (b :: bs) 0 : Int)) = 0
    by_cases hb : b = 45
    · rw [if_pos hb, leerDigitos_sin_digitos bs 0
        (fun x hx => h x (List.mem_cons_of_mem b hx))]
      rfl
    · rw [if_neg hb, leerDigitos_sin_digitos (b :: bs) 0 h]
      rfl

theorem esCargaSpace_iff (l : List Nat) :
    esCargaSpace l = true ↔
      byteAt l 2 = 83 ∧ byteAt l 3 = 112 ∧ byteAt l 4 = 97 ∧
        byteAt l 5 = 99 ∧ byteAt l 6 = 101 := by
  simp [esCargaSpace]

theorem caracterDeCarga_eq (l : List Nat) :
    caracterDeCarga l =
      if byteAt l 2 = 83 ∧ byteAt l 3 = 112 ∧ byteAt l 4 = 97 ∧
          byteAt l 5 = 99 ∧ byteAt l 6 = 101 then 32 else byteAt l 2 := by
  unfold caracterDeCarga
  by_cases hsp : byteAt l 2 = 83 ∧ byteAt l 3 = 112 ∧ byteAt l 4 = 97 ∧
      byteAt l 5 = 99 ∧ byteAt l 6 = 101
  · rw [if_pos ((esCargaSpace_iff l).mpr hsp), if_pos hsp]
  · rw [if_neg (fun hh => hsp ((esCargaSpace_iff l).mp hh)), if_neg hsp]

/-! ### Claim theorems -/

/-- C1 (code_bug evaluation): the spec's intended contract says that after
`rotar(2)` from the initial state, `getMapeo('A')` is `'C'` (67).  The
code's `getMapeo` relocates the same forward distance it measured, so it
returns `'A'` (65) unchanged: the rotation has no effect on the mapping. -/
theorem c1_codigo_ignora_corrimiento :
    (RotorDeMapeo.init.rotar 2).getMapeo 65 = 65 := by decide

/-- The documented example stream: L,H; L,O; L,L; M,2; L,A; L,Space; L,W;
M,-2; L,O; L,R; L,L; L,D (ASCII codes). -/
def tramaEjemplo : List (List Nat) :=
  [[76, 44, 72], [76, 44, 79], [76, 44, 76], [77, 44, 50], [76, 44, 65],
   [76, 44, 83, 112, 97, 99, 101], [76, 44, 87], [77, 44, 45, 50],
   [76, 44, 79], [76, 44, 82], [76, 44, 76], [76, 44, 68]]

/-- C2 (code_bug evaluation): the spec says the example stream leaves the
buffer holding H,O,L,C,space,Y,O,R,L,D (`HOLCY YORLD`).  The code's buffer
ends as H,O,L,A,space,W,O,R,L,D (`HOLA WORLD`): every symbol passes
through the degenerate rotor unchanged. -/
theorem c2_mensaje_ensamblado :
    (procesarLineas Estado.init tramaEjemplo).carga =
      [72, 79, 76, 65, 32, 87, 79, 82, 76, 68] := by decide

/-- C3: on every rotor state reachable from the initial state by any
sequence of `rotar` calls, `getMapeo` returns the uppercase form of every
alphabetic input: the decoded symbol never depends on the rotation. -/
theorem c3_mapeo_independiente_de_rotacion (ds : List Int) (inp : Nat)
    (hL : 65 ≤ inp ∧ inp ≤ 90 ∨ 97 ≤ inp ∧ inp ≤ 122) :
    (aplicarRotaciones ds RotorDeMapeo.init).getMapeo inp = mayuscula inp := by
  rw [getMapeo_alcanzable]
  exact getMapeo_of_mem RotorDeMapeo.init inp hL (mayuscula_mem_alfabeto hL)

/-- Witness for C3 at the rotations [2] and the input 'h' (104). -/
theorem c3_testigo :
    (65 ≤ 104 ∧ 104 ≤ 90 ∨ 97 ≤ 104 ∧ 104 ≤ 122) ∧
    (aplicarRotaciones [2] RotorDeMapeo.init).getMapeo 104 = mayuscula 104 :=
  ⟨by decide, c3_mapeo_independiente_de_rotacion [2] 104 (by decide)⟩

/-- C4 (counterexample): the DATA line with empty payload `L,` does not
leave the buffer unchanged: the parsed character is the NUL terminator
(0), which passes through the rotor and is appended to the buffer. -/
theorem c4_contraejemplo :
    procesarLinea Estado.init [76, 44] =
      (⟨RotorDeMapeo.init, [0]⟩, true) ∧ ([0] : List Nat) ≠ [] := by decide

/-- C4 (amended): a line with an unrecognized first token, and a REMAP
line whose payload contains no digit, leave rotor and buffer unchanged and
do not halt the loop; a DATA line with empty payload does not halt the
loop and leaves the rotor unchanged, but appends the NUL character
(code 0, passed through the rotor unchanged) to the buffer. -/
theorem c4_lineas_malformadas (st : Estado) (l : List Nat) :
    (¬(byteAt l 0 = 76 ∧ byteAt l 1 = 44) →
      ¬(byteAt l 0 = 77 ∧ byteAt l 1 = 44) →
      ¬(byteAt l 0 = 69 ∧ byteAt l 1 = 78 ∧ byteAt l 2 = 68) →
      procesarLinea st l = (st, true)) ∧
    (byteAt l 0 = 77 → byteAt l 1 = 44 →
      (∀ b ∈ l.drop 2, ¬(48 ≤ b ∧ b ≤ 57)) →
      procesarLinea st l = (st, true)) ∧
    (byteAt l 0 = 76 → byteAt l 1 = 44 → l.length = 2 →
      procesarLinea st l = (⟨st.rotor, st.carga ++ [0]⟩, true)) := by
  refine ⟨fun h1 h2 h3 => ?_, fun h77 h44 hnd => ?_, fun h76 h44 hlen => ?_⟩
  · unfold procesarLinea
    rw [if_neg h1, if_neg h2, if_neg h3]
  · unfold procesarLinea
    rw [if_neg (by omega), if_pos ⟨h77, h44⟩,
      parseRotacion_sin_digitos (l.drop 2) hnd]
    obtain ⟨rot, car⟩ := st
    show ((⟨rot.rotar 0, car⟩ : Estado), true) = ((⟨rot, car⟩ : Estado), true)
    rw [rotar_zero]
  · have hl : l = [76, 44] := by
      rcases l with _ | ⟨a, _ | ⟨b, _ | ⟨c, rest⟩⟩⟩ <;>
        simp_all [byteAt, List.length_cons]
    subst hl
    unfold procesarLinea
    rw [if_pos ⟨h76, h44⟩]
    rw [show caracterDeCarga [76, 44] = 0 from by decide]
    obtain ⟨rot, car⟩ := st
    show ((⟨rot, car ++ [rot.getMapeo 0]⟩ : Estado), true) = ((⟨rot, car ++ [0]⟩ : Estado), true)
    rw [getMapeo_pasa rot 0 (by omega) (by omega)]

/-- Witness for C4 at the lines `X,?`, `M,x` and `L,`. -/
theorem c4_testigo :
    procesarLinea Estado.init [88, 44, 63] = (Estado.init, true) ∧
    procesarLinea Estado.init [77, 44, 120] = (Estado.init, true) ∧
    procesarLinea Estado.init [76, 44] =
      (⟨Estado.init.rotor, Estado.init.carga ++ [0]⟩, true) :=
  ⟨(c4_lineas_malformadas Estado.init [88, 44, 63]).1
      (by decide) (by decide) (by decide),
   (c4_lineas_malformadas Estado.init [77, 44, 120]).2.1
      (by decide) (by decide) (by decide),
   (c4_lineas_malformadas Estado.init [76, 44]).2.2
      (by decide) (by decide) (by decide)⟩

/-- C5 (counterexample): the line `L,SpaceX` does not carry its third
character ('S' = 83) as the claim requires for a payload other than the
exact token `Space`: the code only compares the first five payload bytes,
so the carried (and appended) symbol is the space character (32). -/
theorem c5_contraejemplo :
    procesarLinea Estado.init [76, 44, 83, 112, 97, 99, 101, 88] =
      (⟨RotorDeMapeo.init, [32]⟩, true) ∧
    [83, 112, 97, 99, 101, 88] ≠ ([83, 112, 97, 99, 101] : List Nat) ∧
    (32 : Nat) ≠ 83 := by decide

/-- C5 (amended): for every line whose first two characters are `L,`, the
carried symbol is the space character iff bytes 2..6 of the line are
exactly `S`,`p`,`a`,`c`,`e` (the payload begins with `Space`); otherwise
it is the third character of the line; the symbol is decoded through the
rotor and appended to the buffer, and processing continues. -/
theorem c5_simbolo_de_carga (st : Estado) (l : List Nat)
    (h76 : byteAt l 0 = 76) (h44 : byteAt l 1 = 44) :
    procesarLinea st l =
      ((⟨st.rotor, st.carga ++ [st.rotor.getMapeo
        (if byteAt l 2 = 83 ∧ byteAt l 3 = 112 ∧ byteAt l 4 = 97 ∧
            byteAt l 5 = 99 ∧ byteAt l 6 = 101 then 32
         else byteAt l 2)]⟩ : Estado), true) := by
  obtain ⟨rot, car⟩ := st
  unfold procesarLinea
  rw [if_pos ⟨h76, h44⟩]
  show ((⟨rot, car ++ [rot.getMapeo (caracterDeCarga l)]⟩ : Estado), true) = _
  rw [caracterDeCarga_eq l]

/-- Witness for C5 at the exact line `L,Space`. -/
theorem c5_testigo :
    byteAt [76, 44, 83, 112, 97, 99, 101] 0 = 76 ∧
    byteAt [76, 44, 83, 112, 97, 99, 101] 1 = 44 ∧
    procesarLinea Estado.init [76, 44, 83, 112, 97, 99, 101] =
      ((⟨Estado.init.rotor, Estado.init.carga ++ [Estado.init.rotor.getMapeo
        (if byteAt [76, 44, 83, 112, 97, 99, 101] 2 = 83 ∧
            byteAt [76, 44, 83, 112, 97, 99, 101] 3 = 112 ∧
            byteAt [76, 44, 83, 112, 97, 99, 101] 4 = 97 ∧
            byteAt [76, 44, 83, 112, 97, 99, 101] 5 = 99 ∧
            byteAt [76, 44, 83, 112, 97, 99, 101] 6 = 101 then 32
         else byteAt [76, 44, 83, 112, 97, 99, 101] 2)]⟩ : Estado), true) :=
  ⟨by decide, by decide,
   c5_simbolo_de_carga Estado.init [76, 44, 83, 112, 97, 99, 101]
     (by decide) (by decide)⟩

/-- C6 (counterexample): the line `ENDX`, which is not exactly `END`,
also halts the loop: the code only compares the first three characters. -/
theorem c6_contraejemplo :
    procesarLinea Estado.init [69, 78, 68, 88] = (Estado.init, false) ∧
    [69, 78, 68, 88] ≠ ([69, 78, 68] : List Nat) := by decide

/-- C6 (amended): processing a line halts the loop iff its first three
characters are `E`,`N`,`D`; such a line is not consumed as data (nothing
is appended and the rotor is unchanged). -/
theorem c6_alto_si_prefijo_END (st : Estado) (l : List Nat) :
    ((procesarLinea st l).2 = false ↔
      byteAt l 0 = 69 ∧ byteAt l 1 = 78 ∧ byteAt l 2 = 68) ∧
    (byteAt l 0 = 69 ∧ byteAt l 1 = 78 ∧ byteAt l 2 = 68 →
      procesarLinea st l = (st, false)) := by
  unfold procesarLinea
  split_ifs with h1 h2 h3
  · exact ⟨⟨fun hf => by simp at hf, fun hp => by exfalso; omega⟩,
      fun hp => by exfalso; omega⟩
  · exact ⟨⟨fun hf => by simp at hf, fun hp => by exfalso; omega⟩,
      fun hp => by exfalso; omega⟩
  · exact ⟨⟨fun _ => h3, fun _ => rfl⟩, fun _ => rfl⟩
  · exact ⟨⟨fun hf => by simp at hf, fun hp => absurd hp h3⟩,
      fun hp => absurd hp h3⟩

/-- Witness for C6 at the exact line `END`. -/
theorem c6_testigo :
    (byteAt [69, 78, 68] 0 = 69 ∧ byteAt [69, 78, 68] 1 = 78 ∧
      byteAt [69, 78, 68] 2 = 68) ∧
    procesarLinea Estado.init [69, 78, 68] = (Estado.init, false) :=
  ⟨by decide, (c6_alto_si_prefijo_END Estado.init [69, 78, 68]).2 (by decide)⟩

/-- C7: `rotar(n)` followed by `rotar(-n)` restores `getMapeo`'s behavior
on every symbol from any rotor state (indeed the state itself is restored
exactly), and after any rotation sequence whose deltas sum to a multiple
of 26 the map behaves identically to the initial shift-0 state on every
symbol. -/
theorem c7_leyes_de_rotacion :
    (∀ (r : RotorDeMapeo) (n : Int) (inp : Nat),
      ((r.rotar n).rotar (-n)).getMapeo inp = r.getMapeo inp) ∧
    ∀ ds : List Int, ds.sum % 26 = 0 → ∀ inp : Nat,
      (aplicarRotaciones ds RotorDeMapeo.init).getMapeo inp =
        RotorDeMapeo.init.getMapeo inp := by
  constructor
  · intro r n inp
    rw [rotar_rotar_neg]
  · intro ds _ inp
    exact getMapeo_alcanzable ds inp

/-- Witness for C7 at the rotation sequence [2, -2] and the input 'B'. -/
theorem c7_testigo :
    ([2, -2] : List Int).sum % 26 = 0 ∧
    (aplicarRotaciones [2, -2] RotorDeMapeo.init).getMapeo 66 =
      RotorDeMapeo.init.getMapeo 66 :=
  ⟨by decide, c7_leyes_de_rotacion.2 [2, -2] (by decide) 66⟩

/-- C8: on every non-alphabetic symbol and every rotor state, `getMapeo`
returns the symbol unchanged. -/
theorem c8_no_alfabetico_pasa (r : RotorDeMapeo) (inp : Nat)
    (h1 : inp < 65 ∨ 90 < inp) (h2 : inp < 97 ∨ 122 < inp) :
    r.getMapeo inp = inp :=
  getMapeo_pasa r inp h1 h2

/-- Witness for C8 at the space character on the initial rotor. -/
theorem c8_testigo :
    ((32 : Nat) < 65 ∨ 90 < 32) ∧ ((32 : Nat) < 97 ∨ 122 < 32) ∧
    RotorDeMapeo.init.getMapeo 32 = 32 :=
  ⟨Or.inl (by decide), Or.inl (by decide),
   c8_no_alfabetico_pasa RotorDeMapeo.init 32 (Or.inl (by decide))
     (Or.inl (by decide))⟩

/-- C9: a `TramaMap` leaves the buffer contents unchanged, and for any
frame sequence the final buffer is the prior contents followed by the
decoded symbols of the load frames in exactly their arrival order (each
decoded with the rotor state current at its processing time). -/
theorem c9_orden_de_llegada :
    (∀ (n : Int) (st : Estado), ((Trama.mapa n).procesar st).carga = st.carga) ∧
    ∀ (ts : List Trama) (r : RotorDeMapeo) (cs : List Nat),
      (procesarTramas ts ⟨r, cs⟩).carga = cs ++ decodificados ts r := by
  constructor
  · intro n st
    cases st
    rfl
  · intro ts
    induction ts with
    | nil =>
      intro r cs
      simp [procesarTramas, decodificados]
    | cons t ts ih =>
      intro r cs
      cases t with
      | load c =>
        show (procesarTramas ts ⟨r, cs ++ [r.getMapeo c]⟩).carga =
          cs ++ decodificados (Trama.load c :: ts) r
        rw [ih r (cs ++ [r.getMapeo c])]
        simp [decodificados]
      | mapa n =>
        show (procesarTramas ts ⟨r.rotar n, cs⟩).carga =
          cs ++ decodificados (Trama.mapa n :: ts) r
        rw [ih (r.rotar n) cs]
        simp [decodificados]

/-- C10: after any sequence of `rotar` and `getMapeo` calls from the
initial rotor, the ring still holds the letters A..Z in their original
cyclic order: the state differs from the constructed alphabet only by
where `cabeza` points. -/
theorem c10_anillo_invariante (os : List OpRotor) :
    ∃ k, (aplicarOps os RotorDeMapeo.init).ring = alfabeto.rotate k :=
  aplicarOps_ring os RotorDeMapeo.init
